import Mathlib

/-!
Verification of the A-Share analysis core: a shallow embedding, in Lean 4, of
the acquisition pipeline (`src/services/marketService.ts`), the IndexedDB cache
wrapper (`src/utils/db.ts`) and the technical-indicator engine
(`src/utils/indicators.ts`), together with theorems settling the specified
behavioural properties.

Modelling conventions:
* JavaScript numbers are modelled as rationals (`ℚ`); the sources use them as
  exact decimal quantities, and no claim in scope depends on IEEE-754 artifacts.
* A nullable JS value (`number | null | undefined`, absent object field) is
  `Option ℚ`; `none` covers both `null` and `undefined`.
* JS truthiness on numbers (`!x`, `x && …`) is made explicit (`jsTruthy`):
  `null`, `undefined` and `0` are falsy.
* Asynchronous remote calls are modelled by passing each call's outcome in as a
  parameter (`Except String payload`); rejections are `Except.error`.
* `Date.now()` is an explicit `now : Nat` (milliseconds); calendar days are
  `Int` epoch-day numbers, with `Int → String` rendering of a day and the
  `Math.sin`-based pseudo-random stream left as abstract function parameters
  (they are floating-point transcendental computations; no claim depends on the
  produced values, only on presence/shape/count).
* `Math.sqrt` (used only by the Bollinger pass) is likewise passed in as an
  abstract `ℚ → ℚ` parameter.
-/

/-- One OHLCV bar plus the optional derived indicator fields, mirroring the
`Candle` interface of `src/types/stock.ts`.  The TS field `open` is renamed
`open_` (`open` is a Lean keyword). -/
structure Candle where
  date : String
  open_ : ℚ
  high : ℚ
  low : ℚ
  close : ℚ
  volume : ℚ
  amount : ℚ
  pctChg : Option ℚ := none
  ma5 : Option ℚ := none
  ma10 : Option ℚ := none
  ma20 : Option ℚ := none
  ma50 : Option ℚ := none
  ma200 : Option ℚ := none
  dif : Option ℚ := none
  dea : Option ℚ := none
  macd : Option ℚ := none
  k : Option ℚ := none
  d : Option ℚ := none
  j : Option ℚ := none
  rsi : Option ℚ := none
  upper : Option ℚ := none
  mid : Option ℚ := none
  lower : Option ℚ := none
  deriving Repr, DecidableEq

instance : Inhabited Candle :=
  ⟨{ date := "", open_ := 0, high := 0, low := 0, close := 0, volume := 0, amount := 0 }⟩

/-- The (possibly partial) fundamentals record, mirroring `FinancialSnapshot`
of `src/types/stock.ts`; every field is independently nullable.  A
`Partial<FinancialSnapshot>` with a field missing is modelled by that field
being `none`. -/
structure FinancialSnapshot where
  peTTM : Option ℚ := none
  pb : Option ℚ := none
  dividendYield : Option ℚ := none
  marketCap : Option ℚ := none
  circulatingCap : Option ℚ := none
  turnoverRate : Option ℚ := none
  totalShares : Option ℚ := none
  roe : Option ℚ := none
  netMargin : Option ℚ := none
  grossMargin : Option ℚ := none
  debtRatio : Option ℚ := none
  assetTurnover : Option ℚ := none
  equityMultiplier : Option ℚ := none
  reportDate : Option String := none
  deriving Repr, DecidableEq

/-- The aggregate record returned by the acquisition controller, mirroring
`StockData` of `src/types/stock.ts` (whose `financials` is always populated by
`fetchStockData`, so it is non-optional here). -/
structure StockData where
  code : String
  name : String
  candles : List Candle
  lastUpdate : String
  financials : FinancialSnapshot
  deriving Repr, DecidableEq

/-! ## Cache layer: `src/utils/db.ts`

IndexedDB is modelled as an association list from `(storeName, key)` to stored
records.  The `db.get` / `db.set` wrappers wrap every payload in an envelope
`{ data, expiry, timestamp }` (`CacheRecord`).  Failure modes of the underlying
medium are passed in via `DbFaults`:

* `openFail` — `openDB()` rejects (IndexedDB unsupported / open error).  This
  rejection is `await`ed inside the `try` block, so the `catch` sees it.
* `getReqFail` / `putReqFail` — the get/put request itself fires `onerror`,
  rejecting the inner `Promise`.  Crucially, `db.get` and `db.set` do
  `return new Promise(...)` from inside `try` *without* `await`, so the inner
  rejection is adopted by the async function after the `try` block has been
  exited: it is **not** caught, and propagates to the caller.  The model
  reflects this with an `Except.error` result on these paths.
* `deleteFail` — the lazy-delete transaction inside `db.get` throws; this one
  is wrapped in its own local `try`/`catch` and is swallowed.
-/

/-- The envelope written by `db.set`: `{ data, expiry: ttlMs > 0 ? now + ttlMs
: null, timestamp: now }`. -/
structure CacheRecord (α : Type) where
  data : α
  expiry : Option Nat
  timestamp : Nat
  deriving Repr, DecidableEq

/-- One IndexedDB database: an association from `(storeName, key)` to records. -/
abbrev CacheStore (α : Type) := List ((String × String) × CacheRecord α)

/-- Failure switches for the underlying storage medium (see module comment). -/
structure DbFaults where
  openFail : Bool := false
  getReqFail : Bool := false
  deleteFail : Bool := false
  putReqFail : Bool := false
  deriving Repr, DecidableEq

/-- Raw keyed lookup in the store (IndexedDB `objectStore(...).get(key)`). -/
def storeLookup (s : CacheStore α) (storeName key : String) : Option (CacheRecord α) :=
  (s.find? fun e => e.1.1 == storeName && e.1.2 == key).map (·.2)

/-- Raw keyed delete (IndexedDB `objectStore(...).delete(key)`). -/
def storeErase (s : CacheStore α) (storeName key : String) : CacheStore α :=
  s.filter fun e => !(e.1.1 == storeName && e.1.2 == key)

/-- Raw keyed upsert (IndexedDB `objectStore(...).put(record, key)`). -/
def storePut (s : CacheStore α) (storeName key : String) (r : CacheRecord α) : CacheStore α :=
  ((storeName, key), r) :: storeErase s storeName key

/-- The store names of `src/utils/db.ts` (`STORES.MARKET`). -/
def STORES_MARKET : String := "market_data"

/-- The store names of `src/utils/db.ts` (`STORES.ANALYSIS`). -/
def STORES_ANALYSIS : String := "analysis_results"

/-- Shallow embedding of `db.get` (src/utils/db.ts, lines 39–72).  Returns the
read outcome (`Except` because a get-request `onerror` rejection escapes the
`try`/`catch`, see module comment) together with the store state after the
opportunistic lazy delete.  The TTL check is the JS
`record.expiry && Date.now() > record.expiry`: an expiry of `0` is falsy and
therefore never treated as expired. -/
def dbGet (faults : DbFaults) (s : CacheStore α) (storeName key : String) (now : Nat) :
    Except String (Option α) × CacheStore α :=
  if faults.openFail then (.ok none, s)
  else if faults.getReqFail then (.error "DB get request error", s)
  else
    match storeLookup s storeName key with
    | none => (.ok none, s)
    | some record =>
      match record.expiry with
      | some e =>
        if e ≠ 0 ∧ e < now then
          (.ok none, if faults.deleteFail then s else storeErase s storeName key)
        else (.ok (some record.data), s)
      | none => (.ok (some record.data), s)

/-- Shallow embedding of `db.set` (src/utils/db.ts, lines 74–95).  An
`openDB()` rejection is caught (silent no-op); a put-request `onerror`
rejection escapes the `try`/`catch` (see module comment) and nothing is
written. -/
def dbSet (faults : DbFaults) (s : CacheStore α) (storeName key : String) (data : α)
    (ttlMs : Nat) (now : Nat) : Except String Unit × CacheStore α :=
  if faults.openFail then (.ok (), s)
  else if faults.putReqFail then (.error "DB put request error", s)
  else
    (.ok (), storePut s storeName key
      { data := data, expiry := if ttlMs > 0 then some (now + ttlMs) else none, timestamp := now })

/-! ## Cache-layer lemmas and claims -/

theorem storeLookup_put (s : CacheStore α) (ns key : String) (r : CacheRecord α) :
    storeLookup (storePut s ns key r) ns key = some r := by
  simp [storeLookup, storePut, List.find?]

theorem storeLookup_erase (s : CacheStore α) (ns key : String) :
    storeLookup (storeErase s ns key) ns key = none := by
  simp only [storeLookup, storeErase, Option.map_eq_none']
  rw [List.find?_eq_none]
  intro x hx
  simp only [List.mem_filter, Bool.not_eq_eq_eq_not, Bool.not_true] at hx
  simp [hx.2]

/-- C3: for every namespace, key, value and positive TTL, a `db.get` performed
while the stored entry's expiry timestamp (`t0 + ttl`) is still in the future
returns the stored value; a `db.get` performed after the expiry timestamp
returns `null`; a further `db.get` at any later time still returns `null`
(whether or not the opportunistic lazy delete succeeded, so an expired entry is
never resurrected); and failure of the lazy delete (`df2`, `df3`) never fails
the read. -/
theorem C3_cache_ttl_semantics {α : Type} (ns key : String) (v : α) (ttl : Nat)
    (s : CacheStore α) (t0 t1 t2 t3 : Nat) (df1 df2 df3 : Bool)
    (httl : 0 < ttl) (h1 : t1 < t0 + ttl) (h2 : t0 + ttl < t2) (h3 : t2 ≤ t3) :
    (dbGet { deleteFail := df1 } (dbSet {} s ns key v ttl t0).2 ns key t1).1 = .ok (some v) ∧
    (dbGet { deleteFail := df2 } (dbSet {} s ns key v ttl t0).2 ns key t2).1 = .ok none ∧
    (dbGet { deleteFail := df3 }
        (dbGet { deleteFail := df2 } (dbSet {} s ns key v ttl t0).2 ns key t2).2 ns key t3).1
      = .ok none := by
  have hne : t0 + ttl ≠ 0 := by omega
  have hlt1 : ¬ (t0 + ttl < t1) := by omega
  have hlt2 : t0 + ttl < t2 := by omega
  have hlt3 : t0 + ttl < t3 := by omega
  have hset : (dbSet ({} : DbFaults) s ns key v ttl t0).2
      = storePut s ns key { data := v, expiry := some (t0 + ttl), timestamp := t0 } := by
    simp [dbSet, httl]
  refine ⟨?_, ?_, ?_⟩
  · rw [hset]
    simp [dbGet, storeLookup_put, hne, hlt1]
  · rw [hset]
    simp [dbGet, storeLookup_put, hne, hlt2]
  · rw [hset]
    cases df2 with
    | true => simp [dbGet, storeLookup_put, hne, hlt2, hlt3]
    | false => simp [dbGet, storeLookup_put, storeLookup_erase, hne, hlt2, hlt3]

/-- C5 (documenting the code bug): `db.get` and `db.set` return the inner
IndexedDB `Promise` from inside `try` without `await`, so while an `openDB()`
failure is degraded as specified (read → `null`, write → silent no-op), a
storage-medium error raised by the get/put *request* itself (`onerror`, e.g. a
quota error during `put`) rejects the returned promise and propagates to the
caller — contradicting "cache failures are never fatal to callers". -/
theorem C5_medium_error_propagates :
    (dbGet { getReqFail := true } ([] : CacheStore Nat) STORES_MARKET "stock_v3_sh.600519" 5).1
      = .error "DB get request error" ∧
    (dbSet { putReqFail := true } ([] : CacheStore Nat) STORES_MARKET "stock_v3_sh.600519" 7
        1800000 5).1 = .error "DB put request error" ∧
    (dbGet { openFail := true } ([] : CacheStore Nat) STORES_MARKET "stock_v3_sh.600519" 5).1
      = .ok none ∧
    (dbSet { openFail := true } ([] : CacheStore Nat) STORES_MARKET "stock_v3_sh.600519" 7
        1800000 5).2 = [] := by
  exact ⟨rfl, rfl, rfl, rfl⟩

/-! ## Indicator engine: `src/utils/indicators.ts`

Each pass is a left-to-right `map` over the candle sequence; passes with
running state (`MACD`, `RSI`, `KDJ`) are folds written as structural recursions
carrying that state, with the enumeration index where the source consults it.
The JS dynamic field write `[`ma${period}`]` is modelled by `calculateMA`
returning each (unchanged) candle paired with its new moving-average value, and
`setMAField` placing that value into the matching interface field for the five
periods the pipeline uses. -/

/-- Shallow embedding of `calculateMA` (src/utils/indicators.ts, lines 3–10):
each candle paired with the value of its `ma${period}` field.  (For
`period = 0` the JS computes `0/0 = NaN`; the pipeline only uses positive
periods and the claims assume `0 < period`.) -/
def calculateMA (data : List Candle) (period : Nat) : List (Candle × Option ℚ) :=
  data.mapIdx fun index item =>
    if index < period - 1 then (item, none)
    else
      let slice := (data.drop (index + 1 - period)).take (index + 1 - (index + 1 - period))
      let sum := slice.foldl (fun acc curr => acc + curr.close) 0
      (item, some (sum / (period : ℚ)))

/-- Places a computed moving average into the `Candle` field named
`ma${period}` for the five periods used by `processIndicators`. -/
def setMAField (period : Nat) (item : Candle) (v : Option ℚ) : Candle :=
  if period = 5 then { item with ma5 := v }
  else if period = 10 then { item with ma10 := v }
  else if period = 20 then { item with ma20 := v }
  else if period = 50 then { item with ma50 := v }
  else if period = 200 then { item with ma200 := v }
  else item

/-- The moving-average pass as used in the `processIndicators` chain:
`calculateMA` with its result written into the corresponding candle field. -/
def applyMA (data : List Candle) (period : Nat) : List Candle :=
  (calculateMA data period).map fun p => setMAField period p.1 p.2

/-- Recursive core of `calculateMACD` (src/utils/indicators.ts, lines 12–33)
for indices ≥ 1, carrying the running `emaShort`, `emaLong`, `dea`. -/
def macdGo (short long mid : Nat) : List Candle → ℚ → ℚ → ℚ → List Candle
  | [], _, _, _ => []
  | item :: rest, emaShort, emaLong, dea =>
    let emaShort2 := (2 * item.close + ((short : ℚ) - 1) * emaShort) / ((short : ℚ) + 1)
    let emaLong2 := (2 * item.close + ((long : ℚ) - 1) * emaLong) / ((long : ℚ) + 1)
    let dif := emaShort2 - emaLong2
    let dea2 := (2 * dif + ((mid : ℚ) - 1) * dea) / ((mid : ℚ) + 1)
    let macd := (dif - dea2) * 2
    { item with dif := some dif, dea := some dea2, macd := some macd } ::
      macdGo short long mid rest emaShort2 emaLong2 dea2

/-- Shallow embedding of `calculateMACD` (src/utils/indicators.ts, lines
12–33): index 0 seeds both EMAs at the first close and emits `(0, 0, 0)`. -/
def calculateMACD (data : List Candle) (short : Nat := 12) (long : Nat := 26) (mid : Nat := 9) :
    List Candle :=
  match data with
  | [] => []
  | first :: rest =>
    { first with dif := some 0, dea := some 0, macd := some 0 } ::
      macdGo short long mid rest first.close first.close 0

/-- JS `change > 0 ? change : 0` (the per-bar gain in `calculateRSI`). -/
def jsGain (change : ℚ) : ℚ := if change > 0 then change else 0

/-- JS `change < 0 ? -change : 0` (the per-bar loss in `calculateRSI`). -/
def jsLoss (change : ℚ) : ℚ := if change < 0 then -change else 0

/-- The warm-up RSI step (the `index < period` branch of `calculateRSI`,
src/utils/indicators.ts lines 46–53): plain accumulation of gains/losses, with
the one-off division by `period` once the window fills
(`index === period - 1`).  Returns `(gains', losses')`. -/
def rsiWarmStep (period index : Nat) (gains losses gain loss : ℚ) : ℚ × ℚ :=
  let gains1 := gains + gain
  let losses1 := losses + loss
  (if index = period - 1 then gains1 / (period : ℚ) else gains1,
   if index = period - 1 then losses1 / (period : ℚ) else losses1)

/-- The post-warm-up RSI step (the `else` branch of `calculateRSI`,
src/utils/indicators.ts lines 54–60): Wilder smoothing of the running average
gain/loss, with the degenerate `losses === 0` case mapping relative strength to
100.  Returns `(gains', losses', rsi)`. -/
def rsiMainStep (period : Nat) (gains losses gain loss : ℚ) : ℚ × ℚ × ℚ :=
  let gains2 := (gains * ((period : ℚ) - 1) + gain) / (period : ℚ)
  let losses2 := (losses * ((period : ℚ) - 1) + loss) / (period : ℚ)
  let rs := if losses2 = 0 then (100 : ℚ) else gains2 / losses2
  let rsi := 100 - 100 / (1 + rs)
  (gains2, losses2, rsi)

/-- Recursive core of `calculateRSI` (src/utils/indicators.ts, lines 35–62)
for indices ≥ 1, carrying the index, running `gains`/`losses` and the previous
close (the source reads `arr[index - 1].close`). -/
def rsiGo (period : Nat) : List Candle → Nat → ℚ → ℚ → ℚ → List Candle
  | [], _, _, _, _ => []
  | item :: rest, index, gains, losses, prevClose =>
    let change := item.close - prevClose
    let gain := jsGain change
    let loss := jsLoss change
    if index < period then
      let w := rsiWarmStep period index gains losses gain loss
      { item with rsi := some 50 } :: rsiGo period rest (index + 1) w.1 w.2 item.close
    else
      let step := rsiMainStep period gains losses gain loss
      { item with rsi := some step.2.2 } :: rsiGo period rest (index + 1) step.1 step.2.1 item.close

/-- Shallow embedding of `calculateRSI` (src/utils/indicators.ts, lines
35–62): index 0 emits the neutral 50 and leaves the accumulators at 0. -/
def calculateRSI (data : List Candle) (period : Nat := 14) : List Candle :=
  match data with
  | [] => []
  | first :: rest => { first with rsi := some 50 } :: rsiGo period rest 1 0 0 first.close

/-- JS `Math.min(...xs)` over a list.  `Math.min()` of an empty spread is
`+Infinity`; in `calculateKDJ` the slice always contains the current candle
(for `n ≥ 1`), so the empty case is unreachable and its value is immaterial. -/
def jsMathMin : List ℚ → ℚ
  | [] => 0
  | x :: xs => xs.foldl min x

/-- JS `Math.max(...xs)` over a list (empty case unreachable, as for
`jsMathMin`). -/
def jsMathMax : List ℚ → ℚ
  | [] => 0
  | x :: xs => xs.foldl max x

/-- The post-warm-up KDJ step (the main branch of `calculateKDJ`,
src/utils/indicators.ts lines 71–79): the raw stochastic value over the
trailing `n`-bar window of `arr` (the JS `arr.slice(index - n + 1, index + 1)`,
with the flat-range case mapped to 50), smoothed into the running `k` and `d`;
`j = 3k − 2d`.  Returns `(k', d', j)`. -/
def kdjStep (arr : List Candle) (n m1 m2 : Nat) (index : Nat) (item : Candle) (k d : ℚ) :
    ℚ × ℚ × ℚ :=
  let slice := (arr.drop (index + 1 - n)).take (index + 1 - (index + 1 - n))
  let lowN := jsMathMin (slice.map fun c => c.low)
  let highN := jsMathMax (slice.map fun c => c.high)
  let rsv := if highN = lowN then (50 : ℚ) else ((item.close - lowN) / (highN - lowN)) * 100
  let k2 := (1 * rsv + ((m1 : ℚ) - 1) * k) / (m1 : ℚ)
  let d2 := (1 * k2 + ((m2 : ℚ) - 1) * d) / (m2 : ℚ)
  (k2, d2, 3 * k2 - 2 * d2)

/-- Recursive core of `calculateKDJ` (src/utils/indicators.ts, lines 64–83),
carrying the index and the running `k`, `d`; `arr` is the full input list (the
third argument of the JS `map` callback, from which the window is sliced). -/
def kdjGo (arr : List Candle) (n m1 m2 : Nat) : List Candle → Nat → ℚ → ℚ → List Candle
  | [], _, _, _ => []
  | item :: rest, index, k, d =>
    if index < n - 1 then
      { item with k := some 50, d := some 50, j := some 50 } ::
        kdjGo arr n m1 m2 rest (index + 1) k d
    else
      let s := kdjStep arr n m1 m2 index item k d
      { item with k := some s.1, d := some s.2.1, j := some s.2.2 } ::
        kdjGo arr n m1 m2 rest (index + 1) s.1 s.2.1

/-- Shallow embedding of `calculateKDJ` (src/utils/indicators.ts, lines
64–83); `k` and `d` are seeded at 50. -/
def calculateKDJ (data : List Candle) (n : Nat := 9) (m1 : Nat := 3) (m2 : Nat := 3) :
    List Candle :=
  kdjGo data n m1 m2 data 0 50 50

/-- Shallow embedding of `calculateBollinger` (src/utils/indicators.ts, lines
85–103); `sqrt` is the abstract `Math.sqrt`. -/
def calculateBollinger (sqrt : ℚ → ℚ) (data : List Candle) (period : Nat := 20)
    (multiplier : ℚ := 2) : List Candle :=
  data.mapIdx fun index item =>
    if index < period - 1 then { item with upper := none, mid := none, lower := none }
    else
      let slice := (data.drop (index + 1 - period)).take (index + 1 - (index + 1 - period))
      let sum := slice.foldl (fun acc curr => acc + curr.close) 0
      let mid := sum / (period : ℚ)
      let variance := (slice.foldl (fun acc curr => acc + (curr.close - mid) ^ 2) 0) / (period : ℚ)
      let stdDev := sqrt variance
      { item with mid := some mid, upper := some (mid + stdDev * multiplier),
                  lower := some (mid - stdDev * multiplier) }

/-- Shallow embedding of `processIndicators` (src/utils/indicators.ts, lines
105–116): the full enrichment chain. -/
def processIndicators (sqrt : ℚ → ℚ) (candles : List Candle) : List Candle :=
  let data := applyMA candles 5
  let data := applyMA data 10
  let data := applyMA data 20
  let data := applyMA data 50
  let data := applyMA data 200
  let data := calculateMACD data
  let data := calculateRSI data
  let data := calculateKDJ data
  calculateBollinger sqrt data

/-! ## Indicator-engine lemmas and claims -/

theorem slice_eq_range_map {α : Type} [Inhabited α] (l : List α) (a n : Nat)
    (h : a + n ≤ l.length) :
    (l.drop a).take n = (List.range n).map (fun t => l.getD (a + t) default) := by
  apply List.ext_getElem
  · simp
    omega
  · intro i h1 h2
    simp only [List.getElem_take, List.getElem_drop, List.getElem_map, List.getElem_range]
    rw [List.getD_eq_getElem]

theorem foldl_close_eq_sum (l : List Candle) :
    l.foldl (fun acc curr => acc + curr.close) 0 = (l.map (fun c => c.close)).sum := by
  rw [List.sum_eq_foldl, List.foldl_map]

theorem length_calculateMA (data : List Candle) (period : Nat) :
    (calculateMA data period).length = data.length := by
  simp [calculateMA]

theorem length_applyMA (data : List Candle) (period : Nat) :
    (applyMA data period).length = data.length := by
  simp [applyMA, length_calculateMA]

theorem length_macdGo (short long mid : Nat) (rest : List Candle) :
    ∀ a b c, (macdGo short long mid rest a b c).length = rest.length := by
  induction rest with
  | nil => intro a b c; rfl
  | cons x xs ih => intro a b c; simp [macdGo, ih]

theorem length_calculateMACD (data : List Candle) (short long mid : Nat) :
    (calculateMACD data short long mid).length = data.length := by
  cases data with
  | nil => rfl
  | cons x xs => simp [calculateMACD, length_macdGo]

theorem length_rsiGo (period : Nat) (rest : List Candle) :
    ∀ index gains losses prevClose,
      (rsiGo period rest index gains losses prevClose).length = rest.length := by
  induction rest with
  | nil => intro i g l p; rfl
  | cons x xs ih =>
    intro i g l p
    simp only [rsiGo]
    split <;> simp [ih]

theorem length_calculateRSI (data : List Candle) (period : Nat) :
    (calculateRSI data period).length = data.length := by
  cases data with
  | nil => rfl
  | cons x xs => simp [calculateRSI, length_rsiGo]

theorem length_kdjGo (arr : List Candle) (n m1 m2 : Nat) (rest : List Candle) :
    ∀ index k d, (kdjGo arr n m1 m2 rest index k d).length = rest.length := by
  induction rest with
  | nil => intro i k d; rfl
  | cons x xs ih =>
    intro i k d
    simp only [kdjGo]
    split <;> simp [ih]

theorem length_calculateKDJ (data : List Candle) (n m1 m2 : Nat) :
    (calculateKDJ data n m1 m2).length = data.length := by
  simp [calculateKDJ, length_kdjGo]

theorem length_calculateBollinger (sqrt : ℚ → ℚ) (data : List Candle) (period : Nat)
    (multiplier : ℚ) :
    (calculateBollinger sqrt data period multiplier).length = data.length := by
  simp [calculateBollinger]

theorem length_processIndicators (sqrt : ℚ → ℚ) (candles : List Candle) :
    (processIndicators sqrt candles).length = candles.length := by
  simp [processIndicators, length_calculateBollinger, length_calculateKDJ, length_calculateRSI,
    length_calculateMACD, length_applyMA]

/-- C4: for every candle list and every positive period `p`, the
moving-average pass emits `null` for the `ma${p}` value at every index
`i < p - 1`, and at every index `i ≥ p - 1` emits exactly the arithmetic mean
of the `close` values at indices `i - p + 1` through `i`. -/
theorem C4_sma_window (data : List Candle) (period : Nat) (hp : 0 < period) (i : Nat)
    (hi : i < (calculateMA data period).length) :
    (i < period - 1 → ((calculateMA data period)[i]).2 = none) ∧
    (period - 1 ≤ i →
      ((calculateMA data period)[i]).2 =
        some (((List.range period).map
          (fun t => (data.getD (i + 1 - period + t) default).close)).sum / (period : ℚ))) := by
  have hlen : i < data.length := by simpa [length_calculateMA] using hi
  constructor
  · intro hlt
    simp [calculateMA, List.getElem_mapIdx, hlt]
  · intro hge
    have hcond : ¬ (i < period - 1) := by omega
    have htake : i + 1 - (i + 1 - period) = period := by omega
    simp only [calculateMA, List.getElem_mapIdx, if_neg hcond, htake]
    rw [slice_eq_range_map data (i + 1 - period) period (by omega)]
    rw [foldl_close_eq_sum, List.map_map]
    rfl

/-- A concrete candle for closed-form evaluations: open/high/low/close as
given, fixed volume, no derived fields. -/
def exCandle (o h l c : ℚ) : Candle :=
  { date := "2024-01-02", open_ := o, high := h, low := l, close := c, volume := 1000,
    amount := 1000 * c }

theorem C4_sma_window_witness :
    ((calculateMA [exCandle 3 4 2 3, exCandle 5 6 4 5] 2).get
        ⟨1, by simp [length_calculateMA]⟩).2 = some 4 := by
  have h := (C4_sma_window [exCandle 3 4 2 3, exCandle 5 6 4 5] 2 (by norm_num) 1
    (by simp [length_calculateMA])).2 (by norm_num)
  rw [List.get_eq_getElem, h]
  norm_num [List.range_succ, exCandle]

theorem jsMathMin_le_init (bs : List ℚ) : ∀ a : ℚ, bs.foldl min a ≤ a := by
  induction bs with
  | nil => intro a; exact le_refl a
  | cons b bs ih =>
    intro a
    calc (b :: bs).foldl min a = bs.foldl min (min a b) := by simp
    _ ≤ min a b := ih (min a b)
    _ ≤ a := min_le_left a b

theorem jsMathMin_le {x : ℚ} : ∀ {l : List ℚ}, x ∈ l → jsMathMin l ≤ x := by
  intro l hx
  cases l with
  | nil => cases hx
  | cons a as =>
    simp only [jsMathMin]
    induction as generalizing a with
    | nil => simp at hx; simp [hx]
    | cons b bs ih =>
      rcases List.mem_cons.mp hx with h | h
      · calc (b :: bs).foldl min a = bs.foldl min (min a b) := by simp
        _ ≤ min a b := jsMathMin_le_init bs (min a b)
        _ ≤ a := min_le_left a b
        _ = x := h.symm
      · rcases List.mem_cons.mp h with h2 | h2
        · calc (b :: bs).foldl min a = bs.foldl min (min a b) := by simp
          _ ≤ min a b := jsMathMin_le_init bs (min a b)
          _ ≤ b := min_le_right a b
          _ = x := h2.symm
        · have := ih (a := min a b) (List.mem_cons_of_mem _ h2)
          simpa using this

theorem le_jsMathMax_init (bs : List ℚ) : ∀ a : ℚ, a ≤ bs.foldl max a := by
  induction bs with
  | nil => intro a; exact le_refl a
  | cons b bs ih =>
    intro a
    calc a ≤ max a b := le_max_left a b
    _ ≤ bs.foldl max (max a b) := ih (max a b)
    _ = (b :: bs).foldl max a := by simp

theorem le_jsMathMax {x : ℚ} : ∀ {l : List ℚ}, x ∈ l → x ≤ jsMathMax l := by
  intro l hx
  cases l with
  | nil => cases hx
  | cons a as =>
    simp only [jsMathMax]
    induction as generalizing a with
    | nil => simp at hx; simp [hx]
    | cons b bs ih =>
      rcases List.mem_cons.mp hx with h | h
      · calc x = a := h
        _ ≤ max a b := le_max_left a b
        _ ≤ bs.foldl max (max a b) := le_jsMathMax_init bs (max a b)
        _ = (b :: bs).foldl max a := by simp
      · rcases List.mem_cons.mp h with h2 | h2
        · calc x = b := h2
          _ ≤ max a b := le_max_right a b
          _ ≤ bs.foldl max (max a b) := le_jsMathMax_init bs (max a b)
          _ = (b :: bs).foldl max a := by simp
        · have := ih (a := max a b) (List.mem_cons_of_mem _ h2)
          simpa using this

theorem kdjStep_j_eq (arr : List Candle) (n m1 m2 index : Nat) (item : Candle) (k d : ℚ) :
    (kdjStep arr n m1 m2 index item k d).2.2
      = 3 * (kdjStep arr n m1 m2 index item k d).1 - 2 * (kdjStep arr n m1 m2 index item k d).2.1 :=
  rfl

theorem kdjStep_bounds (arr : List Candle) (index : Nat) (item : Candle) (k d : ℚ)
    (hidx : 8 ≤ index) (hlen : index < arr.length) (hitem : arr[index] = item)
    (hvalid : ∀ c ∈ arr, c.low ≤ c.close ∧ c.close ≤ c.high)
    (hk0 : 0 ≤ k) (hk1 : k ≤ 100) (hd0 : 0 ≤ d) (hd1 : d ≤ 100) :
    0 ≤ (kdjStep arr 9 3 3 index item k d).1 ∧ (kdjStep arr 9 3 3 index item k d).1 ≤ 100 ∧
      0 ≤ (kdjStep arr 9 3 3 index item k d).2.1 ∧ (kdjStep arr 9 3 3 index item k d).2.1 ≤ 100 := by
  have htake : index + 1 - (index + 1 - 9) = 9 := by omega
  have hv : item.low ≤ item.close ∧ item.close ≤ item.high := by
    refine hvalid item ?_
    rw [← hitem]
    exact List.getElem_mem hlen
  have hmem : item ∈ (arr.drop (index + 1 - 9)).take (index + 1 - (index + 1 - 9)) := by
    have hb : 8 < ((arr.drop (index + 1 - 9)).take (index + 1 - (index + 1 - 9))).length := by
      simp only [List.length_take, List.length_drop]
      omega
    refine List.mem_iff_get.mpr ⟨⟨8, hb⟩, ?_⟩
    rw [List.get_eq_getElem]
    simp only [List.getElem_take, List.getElem_drop]
    rw [← hitem]
    congr 1
    omega
  set slice := (arr.drop (index + 1 - 9)).take (index + 1 - (index + 1 - 9)) with hslice
  have hlowle : jsMathMin (slice.map fun c => c.low) ≤ item.low :=
    jsMathMin_le (List.mem_map_of_mem _ hmem)
  have hhighle : item.high ≤ jsMathMax (slice.map fun c => c.high) :=
    le_jsMathMax (List.mem_map_of_mem _ hmem)
  set lowN := jsMathMin (slice.map fun c => c.low) with hlowN
  set highN := jsMathMax (slice.map fun c => c.high) with hhighN
  have hrsv : 0 ≤ (if highN = lowN then (50 : ℚ)
      else ((item.close - lowN) / (highN - lowN)) * 100) ∧
      (if highN = lowN then (50 : ℚ)
      else ((item.close - lowN) / (highN - lowN)) * 100) ≤ 100 := by
    by_cases heq : highN = lowN
    · rw [if_pos heq]
      norm_num
    · rw [if_neg heq]
      have hle : lowN < highN := by
        have h1 : lowN ≤ highN := by linarith [hv.1, hv.2]
        exact lt_of_le_of_ne h1 (Ne.symm heq)
      constructor
      · apply mul_nonneg
        · apply div_nonneg
          · linarith [hv.1]
          · linarith
        · norm_num
      · have h2 : (item.close - lowN) / (highN - lowN) ≤ 1 := by
          rw [div_le_one (by linarith)]
          linarith [hv.2]
        nlinarith
  simp only [kdjStep]
  rw [← hslice, ← hlowN, ← hhighN]
  push_cast
  set rsv := (if highN = lowN then (50 : ℚ)
      else ((item.close - lowN) / (highN - lowN)) * 100) with hrsvdef
  constructor
  · linarith [hrsv.1, hrsv.2]
  constructor
  · linarith [hrsv.1, hrsv.2]
  constructor
  · linarith [hrsv.1, hrsv.2]
  · linarith [hrsv.1, hrsv.2]

theorem getElem_of_drop_eq_cons {α : Type} {l : List α} {n : Nat} {x : α} {rest : List α}
    (h : l.drop n = x :: rest) (hn : n < l.length) : l[n] = x := by
  have h1 : l[n]? = some x := by
    have h2 : (l.drop n)[0]? = l[n + 0]? := List.getElem?_drop l n 0
    rw [h] at h2
    simpa using h2.symm
  rw [List.getElem?_eq_getElem hn] at h1
  exact Option.some_injective _ h1

theorem kdjGo_mem_spec (arr : List Candle) :
    ∀ (rest : List Candle) (index : Nat) (k d : ℚ),
      arr.drop index = rest →
      ((∀ c ∈ arr, c.low ≤ c.close ∧ c.close ≤ c.high) →
        0 ≤ k ∧ k ≤ 100 ∧ 0 ≤ d ∧ d ≤ 100) →
      ∀ e ∈ kdjGo arr 9 3 3 rest index k d,
        ∃ kv dv jv, e.k = some kv ∧ e.d = some dv ∧ e.j = some jv ∧
          jv = 3 * kv - 2 * dv ∧
          ((∀ c ∈ arr, c.low ≤ c.close ∧ c.close ≤ c.high) →
            0 ≤ kv ∧ kv ≤ 100 ∧ 0 ≤ dv ∧ dv ≤ 100) := by
  intro rest
  induction rest with
  | nil =>
    intro index k d _ _ e he
    simp [kdjGo] at he
  | cons item rest' ih =>
    intro index k d hdrop hkd e he
    have hdrop' : arr.drop (index + 1) = rest' := by
      rw [← List.tail_drop, hdrop]
      rfl
    by_cases hw : index < 9 - 1
    · simp only [kdjGo, if_pos hw] at he
      rcases List.mem_cons.mp he with h | h
      · subst h
        exact ⟨50, 50, 50, rfl, rfl, rfl, by norm_num, fun _ => by norm_num⟩
      · exact ih (index + 1) k d hdrop' hkd e h
    · have hlen : index < arr.length := by
        have hlength := congrArg List.length hdrop
        simp only [List.length_drop, List.length_cons] at hlength
        omega
      have hitem : arr[index] = item := getElem_of_drop_eq_cons hdrop hlen
      have hidx : 8 ≤ index := by omega
      have hstep : (∀ c ∈ arr, c.low ≤ c.close ∧ c.close ≤ c.high) →
          0 ≤ (kdjStep arr 9 3 3 index item k d).1 ∧
          (kdjStep arr 9 3 3 index item k d).1 ≤ 100 ∧
          0 ≤ (kdjStep arr 9 3 3 index item k d).2.1 ∧
          (kdjStep arr 9 3 3 index item k d).2.1 ≤ 100 := by
        intro hvalid
        obtain ⟨hk0, hk1, hd0, hd1⟩ := hkd hvalid
        exact kdjStep_bounds arr index item k d hidx hlen hitem hvalid hk0 hk1 hd0 hd1
      simp only [kdjGo, if_neg hw] at he
      rcases List.mem_cons.mp he with h | h
      · subst h
        refine ⟨(kdjStep arr 9 3 3 index item k d).1, (kdjStep arr 9 3 3 index item k d).2.1,
          (kdjStep arr 9 3 3 index item k d).2.2, rfl, rfl, rfl, kdjStep_j_eq _ _ _ _ _ _ _ _, hstep⟩
      · exact ih (index + 1) (kdjStep arr 9 3 3 index item k d).1
          (kdjStep arr 9 3 3 index item k d).2.1 hdrop' hstep e h

/-- C7 (amended): for every input candle list, every element emitted by the
KDJ pass carries present (`some`) K/D/J values satisfying `J = 3K − 2D`
exactly; and whenever every input candle satisfies the data-model invariant
`low ≤ close ≤ high`, the emitted K and D lie in [0, 100].  (For arbitrary —
malformed — inputs K and D can leave [0, 100]; see the counterexample.) -/
theorem C7_kdj_bounds (data : List Candle) (i : Nat) (hi : i < (calculateKDJ data).length) :
    ∃ kv dv jv, ((calculateKDJ data)[i]).k = some kv ∧ ((calculateKDJ data)[i]).d = some dv ∧
      ((calculateKDJ data)[i]).j = some jv ∧ jv = 3 * kv - 2 * dv ∧
      ((∀ c ∈ data, c.low ≤ c.close ∧ c.close ≤ c.high) →
        0 ≤ kv ∧ kv ≤ 100 ∧ 0 ≤ dv ∧ dv ≤ 100) := by
  have hmem : (calculateKDJ data)[i] ∈ calculateKDJ data := List.getElem_mem hi
  exact kdjGo_mem_spec data data 0 50 50 rfl (fun _ => by norm_num) _ hmem

theorem C7_kdj_bounds_witness :
    ∃ kv dv jv,
      ((calculateKDJ [exCandle 1 2 1 2]).get ⟨0, by simp [length_calculateKDJ]⟩).k = some kv ∧
      ((calculateKDJ [exCandle 1 2 1 2]).get ⟨0, by simp [length_calculateKDJ]⟩).d = some dv ∧
      ((calculateKDJ [exCandle 1 2 1 2]).get ⟨0, by simp [length_calculateKDJ]⟩).j = some jv ∧
      jv = 3 * kv - 2 * dv ∧
      ((∀ c ∈ [exCandle 1 2 1 2], c.low ≤ c.close ∧ c.close ≤ c.high) →
        0 ≤ kv ∧ kv ≤ 100 ∧ 0 ≤ dv ∧ dv ≤ 100) :=
  C7_kdj_bounds [exCandle 1 2 1 2] 0 (by simp [length_calculateKDJ])

/-- C7 counterexample: on a malformed input (every candle has close 350 above
high 100), the KDJ pass emits K = 150 ∉ [0, 100] at index 8, refuting the
claim as stated for *every* input candle list. -/
theorem C7_counterexample :
    ((calculateKDJ (List.replicate 9 (exCandle 1 100 0 350))).get
        ⟨8, by norm_num [length_calculateKDJ]⟩).k = some 150 ∧ ¬ ((150 : ℚ) ≤ 100) := by
  constructor
  · norm_num [calculateKDJ, kdjGo, kdjStep, jsMathMin, jsMathMax, List.replicate, exCandle,
      List.get]
  · norm_num

theorem jsGain_nonneg (change : ℚ) : 0 ≤ jsGain change := by
  unfold jsGain
  split <;> linarith

theorem jsLoss_nonneg (change : ℚ) : 0 ≤ jsLoss change := by
  unfold jsLoss
  split <;> linarith

theorem rsiWarmStep_nonneg (period index : Nat) (gains losses gain loss : ℚ)
    (hg : 0 ≤ gains) (hl : 0 ≤ losses) (hga : 0 ≤ gain) (hlo : 0 ≤ loss) :
    0 ≤ (rsiWarmStep period index gains losses gain loss).1 ∧
      0 ≤ (rsiWarmStep period index gains losses gain loss).2 := by
  simp only [rsiWarmStep]
  constructor
  · split
    · apply div_nonneg (by linarith) (by positivity)
    · linarith
  · split
    · apply div_nonneg (by linarith) (by positivity)
    · linarith

theorem rsi_output_bounds (rs : ℚ) (hrs : 0 ≤ rs) :
    0 ≤ 100 - 100 / (1 + rs) ∧ 100 - 100 / (1 + rs) ≤ 100 := by
  have hpos : (0 : ℚ) < 1 + rs := by linarith
  constructor
  · have h1 : 100 / (1 + rs) ≤ 100 := by
      rw [div_le_iff₀ hpos]
      nlinarith
    linarith
  · have h2 : 0 < 100 / (1 + rs) := by positivity
    linarith

theorem rsiMainStep_bounds (period : Nat) (gains losses gain loss : ℚ) (hp : 1 ≤ period)
    (hg : 0 ≤ gains) (hl : 0 ≤ losses) (hga : 0 ≤ gain) (hlo : 0 ≤ loss) :
    0 ≤ (rsiMainStep period gains losses gain loss).1 ∧
      0 ≤ (rsiMainStep period gains losses gain loss).2.1 ∧
      0 ≤ (rsiMainStep period gains losses gain loss).2.2 ∧
      (rsiMainStep period gains losses gain loss).2.2 ≤ 100 := by
  have hpq : (1 : ℚ) ≤ (period : ℚ) := by exact_mod_cast hp
  simp only [rsiMainStep]
  set gains2 := (gains * ((period : ℚ) - 1) + gain) / (period : ℚ) with hg2
  set losses2 := (losses * ((period : ℚ) - 1) + loss) / (period : ℚ) with hl2
  have hge : 0 ≤ gains2 := by
    rw [hg2]
    apply div_nonneg (by nlinarith) (by linarith)
  have hle : 0 ≤ losses2 := by
    rw [hl2]
    apply div_nonneg (by nlinarith) (by linarith)
  have hrs : 0 ≤ (if losses2 = 0 then (100 : ℚ) else gains2 / losses2) := by
    split
    · norm_num
    · exact div_nonneg hge hle
  obtain ⟨hb1, hb2⟩ := rsi_output_bounds _ hrs
  exact ⟨hge, hle, hb1, hb2⟩

theorem rsiGo_mem_spec (period : Nat) (hp : 1 ≤ period) :
    ∀ (rest : List Candle) (index : Nat) (gains losses prevClose : ℚ),
      0 ≤ gains → 0 ≤ losses →
      ∀ e ∈ rsiGo period rest index gains losses prevClose,
        ∃ r, e.rsi = some r ∧ 0 ≤ r ∧ r ≤ 100 := by
  intro rest
  induction rest with
  | nil =>
    intro index gains losses prevClose _ _ e he
    simp [rsiGo] at he
  | cons item rest' ih =>
    intro index gains losses prevClose hg hl e he
    simp only [rsiGo] at he
    by_cases hw : index < period
    · rw [if_pos hw] at he
      rcases List.mem_cons.mp he with h | h
      · subst h
        exact ⟨50, rfl, by norm_num, by norm_num⟩
      · obtain ⟨hw1, hw2⟩ := rsiWarmStep_nonneg period index gains losses
          (jsGain (item.close - prevClose)) (jsLoss (item.close - prevClose)) hg hl
          (jsGain_nonneg _) (jsLoss_nonneg _)
        exact ih (index + 1) _ _ item.close hw1 hw2 e h
    · rw [if_neg hw] at he
      obtain ⟨hm1, hm2, hm3, hm4⟩ := rsiMainStep_bounds period gains losses
        (jsGain (item.close - prevClose)) (jsLoss (item.close - prevClose)) hp hg hl
        (jsGain_nonneg _) (jsLoss_nonneg _)
      rcases List.mem_cons.mp he with h | h
      · subst h
        exact ⟨_, rfl, hm3, hm4⟩
      · exact ih (index + 1) _ _ item.close hm1 hm2 e h

theorem calculateRSI_mem_spec (data : List Candle) (period : Nat) (hp : 1 ≤ period) :
    ∀ e ∈ calculateRSI data period, ∃ r, e.rsi = some r ∧ 0 ≤ r ∧ r ≤ 100 := by
  intro e he
  cases data with
  | nil => simp [calculateRSI] at he
  | cons first rest =>
    simp only [calculateRSI] at he
    rcases List.mem_cons.mp he with h | h
    · subst h
      exact ⟨50, rfl, by norm_num, by norm_num⟩
    · exact rsiGo_mem_spec period hp rest 1 0 0 first.close (le_refl 0) (le_refl 0) e h

/-- C8: the RSI pass (default period 14) always emits a present `rsi` value in
[0, 100]; and in the degenerate case of the post-warm-up step where the
smoothed average loss equals 0, the relative strength is taken to be 100 (not
infinity) and the emitted value is `100 − 100/(1 + RS)` at `RS = 100`. -/
theorem C8_rsi_bounds (data : List Candle) (i : Nat) (hi : i < (calculateRSI data).length) :
    (∃ r, ((calculateRSI data)[i]).rsi = some r ∧ 0 ≤ r ∧ r ≤ 100) ∧
    (∀ gains losses gain loss : ℚ,
      (rsiMainStep 14 gains losses gain loss).2.1 = 0 →
      (rsiMainStep 14 gains losses gain loss).2.2 = 100 - 100 / (1 + 100)) := by
  constructor
  · exact calculateRSI_mem_spec data 14 (by norm_num) _ (List.getElem_mem hi)
  · intro gains losses gain loss h0
    simp only [rsiMainStep] at h0 ⊢
    rw [if_pos h0]

theorem C8_rsi_bounds_witness :
    (∃ r, ((calculateRSI [exCandle 1 2 1 2]).get
        ⟨0, by simp [length_calculateRSI]⟩).rsi = some r ∧ 0 ≤ r ∧ r ≤ 100) ∧
    (∀ gains losses gain loss : ℚ,
      (rsiMainStep 14 gains losses gain loss).2.1 = 0 →
      (rsiMainStep 14 gains losses gain loss).2.2 = 100 - 100 / (1 + 100)) :=
  C8_rsi_bounds [exCandle 1 2 1 2] 0 (by simp [length_calculateRSI])

/-! ## Acquisition pipeline: `src/services/marketService.ts`

The remote calls are abstracted as outcome parameters; JS truthiness coercions
are explicit.  Payload shapes keep exactly the null/empty distinctions the
source tests for (`!klineRes || !klineRes.data || !klineRes.data.klines`
etc.); the per-row string-to-candle parse (`split(',')` + `parseFloat`) is
one-to-one and length-preserving and is modelled as already applied. -/

/-- JS truthiness of a nullable number: `null`, `undefined` and `0` are falsy. -/
def jsTruthy : Option ℚ → Bool
  | none => false
  | some x => x != 0

/-- JS `v > 0` on a nullable number (`null > 0` is `false`). -/
def jsPos : Option ℚ → Bool
  | none => false
  | some x => decide (0 < x)

/-- JS `v || null` on a nullable number: a present `0` collapses to `null`. -/
def jsOrNull : Option ℚ → Option ℚ
  | none => none
  | some x => if x = 0 then none else some x

/-- JS `s || dflt` on a nullable string: `null`, `undefined` and `""` give the
default. -/
def jsOrDefault (s : Option String) (dflt : String) : String :=
  match s with
  | none => dflt
  | some s => if s = "" then dflt else s

/-- The financial reconciliation step of `fetchStockData`
(src/services/marketService.ts, lines 392–398): when `roe` is falsy and
`peTTM` and `pb` are truthy with `peTTM > 0`, derive
`roe = (pb / peTTM) * 100`; then default a missing (`null`/`undefined`) debt
ratio to 50.0.  (`getD 0` is never hit: truthiness guarantees presence.) -/
def reconcileFinancials (f : FinancialSnapshot) : FinancialSnapshot :=
  let f1 :=
    if !jsTruthy f.roe && jsTruthy f.peTTM && jsTruthy f.pb && jsPos f.peTTM then
      { f with roe := some ((f.pb.getD 0 / f.peTTM.getD 0) * 100) }
    else f
  if f1.debtRatio = none then { f1 with debtRatio := some 50 } else f1

/-- The final financials assembly of `fetchStockData`
(src/services/marketService.ts, lines 405–420): every numeric field passes
through `|| null`, `totalShares` is hard-coded `null`, and `reportDate`
defaults to today's date string when falsy. -/
def assembleFinancials (f : FinancialSnapshot) (todayStr : String) : FinancialSnapshot :=
  { peTTM := jsOrNull f.peTTM
    pb := jsOrNull f.pb
    dividendYield := jsOrNull f.dividendYield
    marketCap := jsOrNull f.marketCap
    circulatingCap := jsOrNull f.circulatingCap
    turnoverRate := jsOrNull f.turnoverRate
    totalShares := none
    roe := jsOrNull f.roe
    netMargin := jsOrNull f.netMargin
    grossMargin := jsOrNull f.grossMargin
    debtRatio := jsOrNull f.debtRatio
    assetTurnover := jsOrNull f.assetTurnover
    equityMultiplier := jsOrNull f.equityMultiplier
    reportDate := some (jsOrDefault f.reportDate todayStr) }

/-- Outcome of one JSONP transport call: the parsed payload, or a rejection
(script error / timeout). -/
inductive JsonpOutcome (α : Type) where
  | ok (payload : α)
  | fail (msg : String)
  deriving Repr, DecidableEq

/-- The K-line handling of `fetchEastMoneyData` (src/services/marketService.ts,
lines 248–273).  The payload models `klineRes?.data?.klines`: the outer
`Option` covers a null `klineRes` or missing `data`, the inner `Option` a
missing `klines` field.  A rejected transport call throws
`"EastMoney K-Line fetch failed"`; a missing payload throws
`"EastMoney K-Line empty data"`; a *present but empty* `klines` array is not
rejected — it succeeds with an empty candle list. -/
def fetchEastMoneyCandles (kline : JsonpOutcome (Option (Option (List Candle)))) :
    Except String (List Candle) :=
  match kline with
  | .fail _ => .error "EastMoney K-Line fetch failed"
  | .ok none => .error "EastMoney K-Line empty data"
  | .ok (some none) => .error "EastMoney K-Line empty data"
  | .ok (some (some klines)) => .ok klines

/-- The candle handling of `fetchTencentData` (src/services/marketService.ts,
lines 294–330): `json?.data?.[symbol]?.day`, modelled like the EastMoney
payload; a transport rejection propagates uncaught; a present but empty `day`
array succeeds with an empty candle list. -/
def fetchTencentCandles (fetch : JsonpOutcome (Option (Option (List Candle)))) :
    Except String (List Candle) :=
  match fetch with
  | .fail msg => .error msg
  | .ok none => .error "Tencent data empty"
  | .ok (some none) => .error "Tencent data empty"
  | .ok (some (some day)) => .ok day

/-- Which network source produced the returned market data. -/
inductive DataSource where
  | eastmoney
  | tencent
  deriving Repr, DecidableEq

/-- The failover orchestration of `fetchStockData`
(src/services/marketService.ts, lines 351–377), abstracted over the two
adapter outcomes (each `Except.ok` carries that adapter's candles and partial
financials).  EastMoney is attempted first; on its throw the message is
recorded (`emError`) and Tencent is attempted; `none` means both failed (the
mock fallback then fires).  The first adapter that returns without throwing
wins — `success` is set with *no* emptiness check on its candle list. -/
def acquire (em tc : Except String (List Candle × FinancialSnapshot)) :
    Option (DataSource × List Candle × FinancialSnapshot × Option String) :=
  match em with
  | .ok res => some (.eastmoney, res.1, res.2, none)
  | .error emError =>
    match tc with
    | .ok res => some (.tencent, res.1, res.2, some emError)
    | .error _ => none

/-- The market-data cache TTL (src/services/marketService.ts, line 14):
30 minutes in milliseconds. -/
def CACHE_TTL_MS : Nat := 60 * 1000 * 30

/-- The versioned market cache key `stock_${CACHE_VERSION}_${code}`
(src/services/marketService.ts, lines 106 and 115, `CACHE_VERSION = 'v3'`),
used identically for real and mock data. -/
def stockCacheKey (code : String) : String := "stock_v3_" ++ code

/-- JS `date.getDay()` of an epoch-day number: 0 = Sunday … 6 = Saturday
(epoch day 0, 1970-01-01, was a Thursday). -/
def jsGetDay (d : Int) : Int := (d + 4) % 7

/-- The weekend skip test of `generateMockData`
(`date.getDay() === 0 || date.getDay() === 6`). -/
def isWeekendDay (d : Int) : Bool := jsGetDay d == 0 || jsGetDay d == 6

/-- JS `parseFloat(x.toFixed(2))`: round to two decimals (half up; exact on
the rational model, where no claim depends on the tie-breaking of the
floating-point rendering). -/
def toFixed2 (x : ℚ) : ℚ := ((⌊x * 100 + 1 / 2⌋ : ℤ) : ℚ) / 100

/-- The candle-generation loop of `generateMockData`
(src/services/marketService.ts, lines 49–76), iterating `i = 120 … 0` over
calendar days, skipping weekends (no PRNG value is consumed on a skipped
day), threading the running `price`, the PRNG counter (each `rnd()` call
consumes one value of the abstract stream) and the accumulated candles. -/
def mockLoop (nowDay : Int) (dateStr : Int → String) (rnd : Int → ℚ) :
    List Int → ℚ → Int → List Candle → List Candle × ℚ × Int
  | [], price, ctr, acc => (acc, price, ctr)
  | i :: is, price, ctr, acc =>
    if isWeekendDay (nowDay - i) then mockLoop nowDay dateStr rnd is price ctr acc
    else
      let volatility := price * (4 / 100)
      let change := (rnd ctr - 1 / 2) * volatility
      let close := max (1 / 10) (price + change)
      let open_ := price
      let high := max open_ close + rnd (ctr + 1) * volatility * (1 / 2)
      let low := min open_ close - rnd (ctr + 2) * volatility * (1 / 2)
      let volume := ((⌊(100000 : ℚ) + rnd (ctr + 3) * 500000⌋ : ℤ) : ℚ)
      let pctChg := ((close - open_) / open_) * 100
      let c : Candle :=
        { date := dateStr (nowDay - i), open_ := toFixed2 open_, close := toFixed2 close,
          high := toFixed2 high, low := toFixed2 low, volume := volume,
          amount := volume * close, pctChg := some (toFixed2 pctChg) }
      mockLoop nowDay dateStr rnd is close (ctr + 4) (acc ++ [c])

/-- The days iterated by the `generateMockData` loop: `i = 120` down to `0`
(121 calendar days ending at the invocation date). -/
def mockDays : List Int := (List.range 121).map fun t => 120 - (t : Int)

/-- The number of bars `generateMockData` produces when invoked on epoch day
`nowDay`: the non-weekend days among the 121 calendar days ending there. -/
def mockBarCount (nowDay : Int) : Nat :=
  (mockDays.filter fun i => !isWeekendDay (nowDay - i)).length

/-- Shallow embedding of `generateMockData` (src/services/marketService.ts,
lines 36–102).  `rnd` is the abstract `Math.sin`-based PRNG stream indexed by
the running seed, seeded at the sum of the code's character codes and consumed
once per `rnd()` call (in JS source-text order, also through the financials
object literal); `dateStr` renders an epoch day as the `toISOString` date
part; `nowIso` is `new Date().toISOString()`. -/
def generateMockData (code name : String) (nowDay : Int) (dateStr : Int → String)
    (rnd : Int → ℚ) (sqrtq : ℚ → ℚ) (nowIso : String) : StockData :=
  let seed0 : Int := (code.data.map fun ch => (ch.toNat : Int)).sum
  let price0 := 100 + rnd seed0 * 50
  let res := mockLoop nowDay dateStr rnd mockDays price0 (seed0 + 1) []
  let ctr := res.2.2
  { code := code, name := name, candles := processIndicators sqrtq res.1, lastUpdate := nowIso,
    financials :=
      { peTTM := some (toFixed2 (15 + rnd ctr * 20))
        pb := some (toFixed2 (3 / 2 + rnd (ctr + 1) * 5))
        dividendYield := some (toFixed2 (1 + rnd (ctr + 2) * 3))
        marketCap := some 50000000000
        circulatingCap := some 50000000000
        turnoverRate := some (toFixed2 (1 / 2 + rnd (ctr + 3) * 3))
        totalShares := some 2000000000
        roe := some (toFixed2 (8 + rnd (ctr + 4) * 12))
        netMargin := some (toFixed2 (10 + rnd (ctr + 5) * 15))
        debtRatio := some (toFixed2 (30 + rnd (ctr + 6) * 30))
        grossMargin := some (toFixed2 (40 + rnd (ctr + 7) * 20))
        assetTurnover := some (toFixed2 (1 / 2 + rnd (ctr + 8) * (1 / 2)))
        equityMultiplier := some (toFixed2 (3 / 2 + rnd (ctr + 9)))
        reportDate := some "2024-06-30 (Mock)" } }

/-- Shallow embedding of the acquisition controller `fetchStockData`
(src/services/marketService.ts, lines 334–426): cache lookup → failover
acquisition (adapter outcomes passed in as `em`/`tc`) → mock fallback →
indicator enrichment → financial reconciliation → final assembly → cache
write.  `faults` are the cache-medium failure switches, `store` the cache
state, `now` the clock (ms), `nowDay` the epoch day, `dateStr`/`rnd`/`sqrtq`
the abstract date rendering, PRNG and square root, `nowIso` the
`new Date().toISOString()` timestamp and `todayStr` its date part.  Returns
the assembled record and the updated cache, or the propagated error. -/
def fetchStockData (faults : DbFaults) (store : CacheStore StockData)
    (em tc : Except String (List Candle × FinancialSnapshot))
    (code name : String) (now : Nat) (nowDay : Int) (dateStr : Int → String)
    (rnd : Int → ℚ) (sqrtq : ℚ → ℚ) (nowIso todayStr : String) :
    Except String (StockData × CacheStore StockData) :=
  match dbGet faults store STORES_MARKET (stockCacheKey code) now with
  | (.error e, _) => .error e
  | (.ok (some cached), s1) => .ok (cached, s1)
  | (.ok none, s1) =>
    match acquire em tc with
    | none =>
      let mockData := generateMockData code name nowDay dateStr rnd sqrtq nowIso
      match dbSet faults s1 STORES_MARKET (stockCacheKey code) mockData CACHE_TTL_MS now with
      | (.error e, _) => .error e
      | (.ok _, s2) => .ok (mockData, s2)
    | some res =>
      let processedCandles := processIndicators sqrtq res.2.1
      let financials := reconcileFinancials res.2.2.1
      let result : StockData :=
        { code := code, name := name, candles := processedCandles, lastUpdate := nowIso,
          financials := assembleFinancials financials todayStr }
      match dbSet faults s1 STORES_MARKET (stockCacheKey code) result CACHE_TTL_MS now with
      | (.error e, _) => .error e
      | (.ok _, s2) => .ok (result, s2)

/-! ## Acquisition-pipeline claims -/

/-- C1 counterexample: a present-but-empty EastMoney `klines` array is *not*
treated as a Primary failure — `fetchEastMoneyCandles` succeeds with zero
candles, and the orchestrator then lets EastMoney win with an empty candle
list while a Tencent outcome holding a non-empty list is never consulted.
This refutes "on any Primary failure — … or empty candle series — … attempts
the Secondary adapter" and "the first adapter that returns a non-empty candle
sequence wins". -/
theorem C1_counterexample :
    fetchEastMoneyCandles (.ok (some (some []))) = .ok [] ∧
    acquire (.ok ([], {})) (.ok ([exCandle 1 2 1 2], {}))
      = some (.eastmoney, [], {}, none) :=
  ⟨rfl, rfl⟩

/-- C1 (amended): the pipeline attempts EastMoney (Primary) first; when
Primary returns without throwing — even with an empty candle sequence — its
result is used unmodified and the Tencent outcome is never consulted (the
result is independent of it); when Primary throws (transport rejection, or a
missing K-line payload — but not a present-and-empty `klines` array), the
error message is recorded and Tencent is attempted; the first adapter that
returns without throwing wins. -/
theorem C1_failover_order (em tc tc2 : Except String (List Candle × FinancialSnapshot))
    (res : List Candle × FinancialSnapshot) (msg : String) :
    (em = .ok res → acquire em tc = some (.eastmoney, res.1, res.2, none) ∧
      acquire em tc = acquire em tc2) ∧
    (em = .error msg → tc = .ok res →
      acquire em tc = some (.tencent, res.1, res.2, some msg)) ∧
    (∀ p, fetchEastMoneyCandles (.fail p) = .error "EastMoney K-Line fetch failed") ∧
    fetchEastMoneyCandles (.ok none) = .error "EastMoney K-Line empty data" := by
  refine ⟨?_, ?_, fun p => rfl, rfl⟩
  · intro h
    subst h
    exact ⟨rfl, rfl⟩
  · intro h1 h2
    subst h1
    subst h2
    rfl

theorem C1_failover_order_witness :
    acquire (.ok ([exCandle 1 2 1 2], {})) (.error "x")
        = some (.eastmoney, [exCandle 1 2 1 2], {}, none) ∧
    acquire (.error "EastMoney K-Line fetch failed") (.ok ([exCandle 1 2 1 2], {}))
        = some (.tencent, [exCandle 1 2 1 2], {}, some "EastMoney K-Line fetch failed") :=
  ⟨((C1_failover_order (.ok ([exCandle 1 2 1 2], {})) (.error "x") (.error "y")
      ([exCandle 1 2 1 2], {}) "m").1 rfl).1,
    (C1_failover_order (.error "EastMoney K-Line fetch failed") (.ok ([exCandle 1 2 1 2], {}))
      (.error "y") ([exCandle 1 2 1 2], {}) "EastMoney K-Line fetch failed").2.1 rfl rfl⟩

/-- C9 counterexample: with ROE absent, P/E = 20 present and positive, and
P/B *present with value 0*, the claim demands a derived ROE of
(0 ÷ 20) × 100 = 0, but the truthiness guard `financials.pb` rejects a present
0 and reconciliation leaves ROE absent. -/
theorem C9_counterexample :
    (reconcileFinancials { peTTM := some 20, pb := some 0 }).roe = none ∧
    (reconcileFinancials { peTTM := some 20, pb := some 0 }).roe
      ≠ some (((0 : ℚ) / 20) * 100) := by
  have h : (reconcileFinancials { peTTM := some 20, pb := some 0 }).roe = none := by
    simp [reconcileFinancials, jsTruthy, jsPos]
  exact ⟨h, by rw [h]; simp⟩

/-- C9 (amended): when ROE is absent, P/E (TTM) is present with P/E > 0 and
P/B is present and *nonzero*, reconciliation derives
ROE = (P/B ÷ P/E) × 100 (so P/E = 20, P/B = 4, ROE absent yields ROE = 20);
and whenever `debtRatio` is absent, reconciliation sets it to 50.0.  (A
present P/B of exactly 0 is rejected by the truthiness guard and ROE stays
absent; see the counterexample.) -/
theorem C9_reconciler (f : FinancialSnapshot) (pe b : ℚ)
    (hroe : f.roe = none) (hpe : f.peTTM = some pe) (hpepos : 0 < pe)
    (hpb : f.pb = some b) (hbne : b ≠ 0) :
    (reconcileFinancials f).roe = some ((b / pe) * 100) ∧
    (∀ g : FinancialSnapshot, g.debtRatio = none →
      (reconcileFinancials g).debtRatio = some 50) := by
  constructor
  · have hpne : pe ≠ 0 := ne_of_gt hpepos
    have hcond : (!jsTruthy f.roe && jsTruthy f.peTTM && jsTruthy f.pb && jsPos f.peTTM)
        = true := by
      simp [jsTruthy, jsPos, hroe, hpe, hpb, hpne, hbne, hpepos]
    simp only [reconcileFinancials, hcond, if_true]
    split <;> simp [hpb, hpe]
  · intro g hg
    simp only [reconcileFinancials]
    split <;> simp [hg]

theorem C9_reconciler_witness :
    (reconcileFinancials { peTTM := some 20, pb := some 4 }).roe
        = some (((4 : ℚ) / 20) * 100) ∧
    (∀ g : FinancialSnapshot, g.debtRatio = none →
      (reconcileFinancials g).debtRatio = some 50) :=
  C9_reconciler { peTTM := some 20, pb := some 4 } 20 4 rfl rfl (by norm_num) rfl (by norm_num)

theorem jsOrNull_some_of_ne (x : ℚ) (hx : x ≠ 0) : jsOrNull (some x) = some x := by
  simp [jsOrNull, hx]

theorem reconcile_untouched (f : FinancialSnapshot) :
    (reconcileFinancials f).peTTM = f.peTTM ∧ (reconcileFinancials f).pb = f.pb ∧
    (reconcileFinancials f).dividendYield = f.dividendYield ∧
    (reconcileFinancials f).marketCap = f.marketCap ∧
    (reconcileFinancials f).circulatingCap = f.circulatingCap ∧
    (reconcileFinancials f).turnoverRate = f.turnoverRate ∧
    (reconcileFinancials f).totalShares = f.totalShares ∧
    (reconcileFinancials f).netMargin = f.netMargin ∧
    (reconcileFinancials f).grossMargin = f.grossMargin ∧
    (reconcileFinancials f).assetTurnover = f.assetTurnover ∧
    (reconcileFinancials f).equityMultiplier = f.equityMultiplier ∧
    (reconcileFinancials f).reportDate = f.reportDate := by
  simp only [reconcileFinancials]
  split <;> split <;> simp

theorem reconcile_roe_present (f : FinancialSnapshot) (x : ℚ) (hx : x ≠ 0)
    (h : f.roe = some x) : (reconcileFinancials f).roe = some x := by
  have hcond : (!jsTruthy f.roe && jsTruthy f.peTTM && jsTruthy f.pb && jsPos f.peTTM)
      = false := by
    simp [jsTruthy, h, hx]
  simp only [reconcileFinancials, hcond]
  split
  · simp_all
  · split <;> simp [h]

theorem reconcile_debt_present (f : FinancialSnapshot) (x : ℚ)
    (h : f.debtRatio = some x) : (reconcileFinancials f).debtRatio = some x := by
  simp only [reconcileFinancials]
  split <;> split <;> simp_all

/-- C2 counterexample: a `peTTM` present with value 0 in the winning snapshot
is turned into `null` by the final `|| null` assembly, refuting "never turn a
present zero into absence". -/
theorem C2_counterexample :
    (assembleFinancials (reconcileFinancials { peTTM := some 0 }) "2026-10-11").peTTM = none ∧
    (assembleFinancials (reconcileFinancials { peTTM := some 0 }) "2026-10-11").peTTM
      ≠ some 0 := by
  have h : (assembleFinancials (reconcileFinancials { peTTM := some 0 }) "2026-10-11").peTTM
      = none := by
    have hp : (reconcileFinancials { peTTM := some 0 }).peTTM = some 0 :=
      (reconcile_untouched _).1
    simp [assembleFinancials, hp, jsOrNull]
  exact ⟨h, by rw [h]; simp⟩

/-- C2 (amended): every numeric field of the winning snapshot that is present
with a *nonzero* value appears unchanged in the returned record's financials,
and a present nonempty `reportDate` is preserved — except `totalShares`,
which the final assembly hard-codes to `null`.  A present value of 0 in any
numeric field is coerced to `null` by the `|| null` assembly (and a present
`roe` of 0 is additionally treated as absent by the derivation guard); see
the counterexample. -/
theorem C2_field_preservation (f : FinancialSnapshot) (x : ℚ) (s todayStr : String)
    (hx : x ≠ 0) (hs : s ≠ "") :
    (f.peTTM = some x →
      (assembleFinancials (reconcileFinancials f) todayStr).peTTM = some x) ∧
    (f.pb = some x → (assembleFinancials (reconcileFinancials f) todayStr).pb = some x) ∧
    (f.dividendYield = some x →
      (assembleFinancials (reconcileFinancials f) todayStr).dividendYield = some x) ∧
    (f.marketCap = some x →
      (assembleFinancials (reconcileFinancials f) todayStr).marketCap = some x) ∧
    (f.circulatingCap = some x →
      (assembleFinancials (reconcileFinancials f) todayStr).circulatingCap = some x) ∧
    (f.turnoverRate = some x →
      (assembleFinancials (reconcileFinancials f) todayStr).turnoverRate = some x) ∧
    (f.roe = some x → (assembleFinancials (reconcileFinancials f) todayStr).roe = some x) ∧
    (f.netMargin = some x →
      (assembleFinancials (reconcileFinancials f) todayStr).netMargin = some x) ∧
    (f.grossMargin = some x →
      (assembleFinancials (reconcileFinancials f) todayStr).grossMargin = some x) ∧
    (f.debtRatio = some x →
      (assembleFinancials (reconcileFinancials f) todayStr).debtRatio = some x) ∧
    (f.assetTurnover = some x →
      (assembleFinancials (reconcileFinancials f) todayStr).assetTurnover = some x) ∧
    (f.equityMultiplier = some x →
      (assembleFinancials (reconcileFinancials f) todayStr).equityMultiplier = some x) ∧
    (f.reportDate = some s →
      (assembleFinancials (reconcileFinancials f) todayStr).reportDate = some s) ∧
    (assembleFinancials (reconcileFinancials f) todayStr).totalShares = none := by
  obtain ⟨h1, h2, h3, h4, h5, h6, h7, h8, h9, h10, h11, h12⟩ := reconcile_untouched f
  refine ⟨?_, ?_, ?_, ?_, ?_, ?_, ?_, ?_, ?_, ?_, ?_, ?_, ?_, ?_⟩
  · intro hf
    simp [assembleFinancials, h1, hf, jsOrNull_some_of_ne x hx]
  · intro hf
    simp [assembleFinancials, h2, hf, jsOrNull_some_of_ne x hx]
  · intro hf
    simp [assembleFinancials, h3, hf, jsOrNull_some_of_ne x hx]
  · intro hf
    simp [assembleFinancials, h4, hf, jsOrNull_some_of_ne x hx]
  · intro hf
    simp [assembleFinancials, h5, hf, jsOrNull_some_of_ne x hx]
  · intro hf
    simp [assembleFinancials, h6, hf, jsOrNull_some_of_ne x hx]
  · intro hf
    simp [assembleFinancials, reconcile_roe_present f x hx hf, jsOrNull_some_of_ne x hx]
  · intro hf
    simp [assembleFinancials, h8, hf, jsOrNull_some_of_ne x hx]
  · intro hf
    simp [assembleFinancials, h9, hf, jsOrNull_some_of_ne x hx]
  · intro hf
    simp [assembleFinancials, reconcile_debt_present f x hf, jsOrNull_some_of_ne x hx]
  · intro hf
    simp [assembleFinancials, h10, hf, jsOrNull_some_of_ne x hx]
  · intro hf
    simp [assembleFinancials, h11, hf, jsOrNull_some_of_ne x hx]
  · intro hf
    simp [assembleFinancials, h12, hf, jsOrDefault, hs]
  · simp [assembleFinancials]

theorem C2_field_preservation_witness :
    (assembleFinancials (reconcileFinancials
        { peTTM := some 7, reportDate := some "2024-06-30" }) "2026-10-11").peTTM = some 7 ∧
    (assembleFinancials (reconcileFinancials
        { peTTM := some 7, reportDate := some "2024-06-30" }) "2026-10-11").reportDate
      = some "2024-06-30" ∧
    (assembleFinancials (reconcileFinancials
        { peTTM := some 7, reportDate := some "2024-06-30" }) "2026-10-11").totalShares
      = none := by
  have h := C2_field_preservation { peTTM := some 7, reportDate := some "2024-06-30" } 7
    "2024-06-30" "2026-10-11" (by norm_num) (by simp)
  exact ⟨h.1 rfl, h.2.2.2.2.2.2.2.2.2.2.2.2.1 rfl, h.2.2.2.2.2.2.2.2.2.2.2.2.2⟩

theorem mockLoop_length (nowDay : Int) (dateStr : Int → String) (rnd : Int → ℚ) :
    ∀ (days : List Int) (price : ℚ) (ctr : Int) (acc : List Candle),
      (mockLoop nowDay dateStr rnd days price ctr acc).1.length
        = acc.length + (days.filter fun i => !isWeekendDay (nowDay - i)).length := by
  intro days
  induction days with
  | nil =>
    intro price ctr acc
    simp [mockLoop]
  | cons i is ih =>
    intro price ctr acc
    simp only [mockLoop]
    by_cases hw : isWeekendDay (nowDay - i)
    · rw [if_pos hw]
      simp only [List.filter_cons, hw, Bool.not_true]
      rw [ih]
      simp
    · rw [if_neg hw]
      simp only [List.filter_cons]
      rw [ih]
      simp only [List.length_append, List.length_cons]
      have : (!isWeekendDay (nowDay - i)) = true := by simp [hw]
      rw [this]
      simp
      omega

theorem generateMockData_length (code name : String) (nowDay : Int) (dateStr : Int → String)
    (rnd : Int → ℚ) (sqrtq : ℚ → ℚ) (nowIso : String) :
    (generateMockData code name nowDay dateStr rnd sqrtq nowIso).candles.length
      = mockBarCount nowDay := by
  simp only [generateMockData, length_processIndicators, mockBarCount]
  rw [mockLoop_length]
  simp

/-- Every field of a financial snapshot is present (non-null). -/
def allFinancialsPresent (f : FinancialSnapshot) : Prop :=
  f.peTTM ≠ none ∧ f.pb ≠ none ∧ f.dividendYield ≠ none ∧ f.marketCap ≠ none ∧
  f.circulatingCap ≠ none ∧ f.turnoverRate ≠ none ∧ f.totalShares ≠ none ∧ f.roe ≠ none ∧
  f.netMargin ≠ none ∧ f.grossMargin ≠ none ∧ f.debtRatio ≠ none ∧ f.assetTurnover ≠ none ∧
  f.equityMultiplier ≠ none ∧ f.reportDate ≠ none

/-- C6 counterexample: the number of generated bars is not fixed across
invocations of `generateMockData` — for the same security code and PRNG
stream, an invocation on epoch day 0 (a Thursday) yields 87 bars while an
invocation on epoch day 3 (a Sunday) yields 85, because the 121-calendar-day
window contains a weekday-dependent number of weekend days. -/
theorem C6_counterexample :
    (generateMockData "sh.600519" "Moutai" 0 (fun _ => "") (fun _ => 0) (fun _ => 0)
        "t").candles.length = 87 ∧
    (generateMockData "sh.600519" "Moutai" 3 (fun _ => "") (fun _ => 0) (fun _ => 0)
        "t").candles.length = 85 ∧ (87 : Nat) ≠ 85 := by
  refine ⟨?_, ?_, by norm_num⟩
  · rw [generateMockData_length]
    decide
  · rw [generateMockData_length]
    decide

/-- C6 (amended): when both network sources fail and the cache misses (with a
non-faulting cache medium), `fetchStockData` propagates no error: it returns
the deterministic placeholder record generated from the security code, with
every financial field non-null; its bar count equals `mockBarCount nowDay`,
the number of non-weekend days in the trailing 121-calendar-day window — a
count that is *not* the same on every invocation, ranging with the weekday of
the invocation date (87 for epoch day 0, 86 for epoch day 2, 85 for epoch
day 3). -/
theorem C6_mock_fallback (store : CacheStore StockData)
    (em tc : Except String (List Candle × FinancialSnapshot)) (e1 e2 : String)
    (code name : String) (now : Nat) (nowDay : Int) (dateStr : Int → String)
    (rnd : Int → ℚ) (sqrtq : ℚ → ℚ) (nowIso todayStr : String)
    (hEm : em = .error e1) (hTc : tc = .error e2)
    (hMiss : storeLookup store STORES_MARKET (stockCacheKey code) = none) :
    (∃ s2, fetchStockData {} store em tc code name now nowDay dateStr rnd sqrtq nowIso todayStr
        = .ok (generateMockData code name nowDay dateStr rnd sqrtq nowIso, s2)) ∧
    (generateMockData code name nowDay dateStr rnd sqrtq nowIso).candles.length
      = mockBarCount nowDay ∧
    allFinancialsPresent (generateMockData code name nowDay dateStr rnd sqrtq nowIso).financials ∧
    mockBarCount 0 = 87 ∧ mockBarCount 2 = 86 ∧ mockBarCount 3 = 85 := by
  subst hEm
  subst hTc
  refine ⟨⟨storePut store STORES_MARKET (stockCacheKey code)
      { data := generateMockData code name nowDay dateStr rnd sqrtq nowIso,
        expiry := some (now + CACHE_TTL_MS), timestamp := now }, ?_⟩,
    generateMockData_length _ _ _ _ _ _ _, ?_, by decide, by decide, by decide⟩
  · simp [fetchStockData, dbGet, dbSet, acquire, hMiss, CACHE_TTL_MS]
  · simp [generateMockData, allFinancialsPresent]

theorem C6_mock_fallback_witness :
    (∃ s2, fetchStockData {} [] (.error "em down") (.error "qq down") "sh.600519" "Moutai" 5 0
        (fun _ => "") (fun _ => 0) (fun _ => 0) "t" "2026-10-11"
        = .ok (generateMockData "sh.600519" "Moutai" 0 (fun _ => "") (fun _ => 0) (fun _ => 0)
            "t", s2)) ∧
    (generateMockData "sh.600519" "Moutai" 0 (fun _ => "") (fun _ => 0) (fun _ => 0)
        "t").candles.length = mockBarCount 0 ∧
    allFinancialsPresent (generateMockData "sh.600519" "Moutai" 0 (fun _ => "") (fun _ => 0)
        (fun _ => 0) "t").financials ∧
    mockBarCount 0 = 87 ∧ mockBarCount 2 = 86 ∧ mockBarCount 3 = 85 :=
  C6_mock_fallback [] (.error "em down") (.error "qq down") "em down" "qq down" "sh.600519"
    "Moutai" 5 0 (fun _ => "") (fun _ => 0) (fun _ => 0) "t" "2026-10-11" rfl rfl rfl

/-- C10: when every network source fails (healthy cache medium, cache miss),
the synthetic placeholder record is written to the cache under the same key
(`stock_v3_${code}`) and TTL (30 minutes) as real market data before being
returned; consequently every subsequent fetch of that code within the TTL —
with *any* adapter outcomes, i.e. even after network connectivity has
recovered — returns the identical synthetic record verbatim and leaves the
cache unchanged. -/
theorem C10_mock_cached (store : CacheStore StockData)
    (em tc em2 tc2 : Except String (List Candle × FinancialSnapshot)) (e1 e2 : String)
    (code name : String) (now1 now2 : Nat) (nowDay nowDay2 : Int)
    (dateStr dateStr2 : Int → String) (rnd rnd2 : Int → ℚ) (sqrtq sqrtq2 : ℚ → ℚ)
    (nowIso todayStr nowIso2 todayStr2 : String)
    (hEm : em = .error e1) (hTc : tc = .error e2)
    (hMiss : storeLookup store STORES_MARKET (stockCacheKey code) = none)
    (hTtl : now2 < now1 + CACHE_TTL_MS) :
    ∃ s2,
      fetchStockData {} store em tc code name now1 nowDay dateStr rnd sqrtq nowIso todayStr
        = .ok (generateMockData code name nowDay dateStr rnd sqrtq nowIso, s2) ∧
      storeLookup s2 STORES_MARKET (stockCacheKey code)
        = some { data := generateMockData code name nowDay dateStr rnd sqrtq nowIso,
                 expiry := some (now1 + CACHE_TTL_MS), timestamp := now1 } ∧
      fetchStockData {} s2 em2 tc2 code name now2 nowDay2 dateStr2 rnd2 sqrtq2 nowIso2 todayStr2
        = .ok (generateMockData code name nowDay dateStr rnd sqrtq nowIso, s2) := by
  subst hEm
  subst hTc
  refine ⟨storePut store STORES_MARKET (stockCacheKey code)
      { data := generateMockData code name nowDay dateStr rnd sqrtq nowIso,
        expiry := some (now1 + CACHE_TTL_MS), timestamp := now1 },
    ?_, storeLookup_put _ _ _ _, ?_⟩
  · simp [fetchStockData, dbGet, dbSet, acquire, hMiss, CACHE_TTL_MS]
  · have hcond : ¬ (now1 + CACHE_TTL_MS < now2) := by omega
    simp [fetchStockData, dbGet, storeLookup_put, hcond]

theorem C10_mock_cached_witness :
    ∃ s2,
      fetchStockData {} [] (.error "em down") (.error "qq down") "sh.600519" "Moutai" 5 0
          (fun _ => "") (fun _ => 0) (fun _ => 0) "t" "2026-10-11"
        = .ok (generateMockData "sh.600519" "Moutai" 0 (fun _ => "") (fun _ => 0) (fun _ => 0)
            "t", s2) ∧
      storeLookup s2 STORES_MARKET (stockCacheKey "sh.600519")
        = some { data := generateMockData "sh.600519" "Moutai" 0 (fun _ => "") (fun _ => 0)
                   (fun _ => 0) "t",
                 expiry := some (5 + CACHE_TTL_MS), timestamp := 5 } ∧
      fetchStockData {} s2 (.ok ([exCandle 1 2 1 2], {})) (.error "qq down") "sh.600519"
          "Moutai" 6 0 (fun _ => "") (fun _ => 0) (fun _ => 0) "t2" "2026-10-12"
        = .ok (generateMockData "sh.600519" "Moutai" 0 (fun _ => "") (fun _ => 0) (fun _ => 0)
            "t", s2) :=
  C10_mock_cached [] (.error "em down") (.error "qq down") (.ok ([exCandle 1 2 1 2], {}))
    (.error "qq down") "em down" "qq down" "sh.600519" "Moutai" 5 6 0 0 (fun _ => "")
    (fun _ => "") (fun _ => 0) (fun _ => 0) (fun _ => 0) (fun _ => 0) "t" "2026-10-11" "t2"
    "2026-10-12" rfl rfl rfl (by norm_num [CACHE_TTL_MS])

theorem C3_cache_ttl_semantics_witness :
    (dbGet { deleteFail := false } (dbSet {} ([] : CacheStore Nat) "market_data" "k" 7 100 0).2
        "market_data" "k" 50).1 = .ok (some 7) ∧
    (dbGet { deleteFail := true } (dbSet {} ([] : CacheStore Nat) "market_data" "k" 7 100 0).2
        "market_data" "k" 101).1 = .ok none ∧
    (dbGet { deleteFail := false }
        (dbGet { deleteFail := true } (dbSet {} ([] : CacheStore Nat) "market_data" "k" 7 100
          0).2 "market_data" "k" 101).2 "market_data" "k" 200).1 = .ok none :=
  C3_cache_ttl_semantics "market_data" "k" 7 100 [] 0 50 101 200 false true false
    (by norm_num) (by norm_num) (by norm_num) (by norm_num)
